import Mathlib

/-!
Verification development for the TraderLens-AI news pipeline.
The pipeline stages are embedded shallowly from the repository sources:
the deduplicator (check_duplicate), the impact scorer (map_impact with
its confidence table IMPACT_TYPES), the query ranking (rank_results),
the sentiment guard (analyze), the query intent classifier, the
answer-synthesis fallback, and the dashboard toggle handlers.
Real-valued confidences and scores are embedded as rationals.
-/

open List

/-! ### Impact scorer data model (src/unnamed/part_003, section 7) -/

/-- Impact categories, from the IMPACT_TYPES table in part_003. -/
inductive ImpactType
  | direct
  | sector
  | regulatory
  | supply_chain
deriving DecidableEq, Repr

/-- A scored relationship between an article and a security.
Fields follow the StockImpact rows built in map_impact (part_003,
lines 330-363): stock symbol, impact type, confidence; the reasoning
string carries the reason text of the IMPACT_TYPES table. -/
structure StockImpact where
  stock : String
  impact_type : ImpactType
  confidence : ℚ
  reasoning : String
deriving DecidableEq, Repr

/-- An entry of the entity catalog: alias name, ticker symbol, sector. -/
structure Company where
  name : String
  symbol : String
  sector : String
deriving DecidableEq, Repr

/-- The static entity catalog: company list, regulator jurisdictions,
and sector keyword list (used by query-side detection). -/
structure Catalog where
  companies : List Company
  regulated : List (String × List Company)
  sectorKeywords : List String
deriving Repr

/-- Entity categories relevant to map_impact (part_003, section 6.2). -/
inductive EntityType
  | COMPANY
  | REGULATOR
  | SECTOR
  | EVENT
deriving DecidableEq, Repr

/-- A typed mention extracted from an article; the source field names
are type and value. -/
structure Entity where
  etype : EntityType
  value : String
deriving DecidableEq, Repr

/-- lookup_company from map_impact: resolve an entity value in the
catalog. The pseudocode assumes the lookup succeeds; entities that
resolve to no catalog entry contribute no impacts. -/
def lookup_company (cat : Catalog) (value : String) : Option Company :=
  cat.companies.find? (fun c => c.name = value)

/-- get_sector_peers from map_impact: every catalog company in the
given sector (the source passes only the sector, so the mentioned
company itself is not excluded). -/
def get_sector_peers (cat : Catalog) (sector : String) : List Company :=
  cat.companies.filter (fun c => c.sector = sector)

/-- get_regulated_companies from map_impact: companies under the
jurisdiction of the named regulator. -/
def get_regulated_companies (cat : Catalog) (reg : String) : List Company :=
  match cat.regulated.find? (fun p => p.1 = reg) with
  | some p => p.2
  | none => []

/-- The impacts contributed by one entity, following the loop body of
map_impact (part_003, lines 333-360): a COMPANY entity yields a DIRECT
impact at confidence 1.0 plus a SECTOR impact at confidence 0.7 for
each sector peer; a REGULATOR entity yields a REGULATORY impact at
confidence 0.6 for each regulated company. Reason strings come from
the IMPACT_TYPES table (part_003, lines 307-324). -/
def entity_impacts (cat : Catalog) (e : Entity) : List StockImpact :=
  match e.etype with
  | EntityType.COMPANY =>
      match lookup_company cat e.value with
      | some c =>
          ⟨c.symbol, ImpactType.direct, 1, "Company directly mentioned"⟩ ::
            (get_sector_peers cat c.sector).map
              (fun p => ⟨p.symbol, ImpactType.sector, 7/10, "Sector-wide impact"⟩)
      | none => []
  | EntityType.REGULATOR =>
      (get_regulated_companies cat e.value).map
        (fun c => ⟨c.symbol, ImpactType.regulatory, 6/10, "Regulator policy impact"⟩)
  | _ => []

/-- The key on which impacts are deduplicated: (stock symbol, impact type). -/
def keyOf (i : StockImpact) : String × ImpactType :=
  (i.stock, i.impact_type)

/-- Merge a group of impacts sharing one (symbol, type) key: keep the
maximum confidence and concatenate the reasoning strings. -/
def mergeGroup (h : StockImpact) (t : List StockImpact) : StockImpact :=
  { stock := h.stock
    impact_type := h.impact_type
    confidence := t.foldl (fun acc j => max acc j.confidence) h.confidence
    reasoning := t.foldl (fun acc j => acc ++ "; " ++ j.reasoning) h.reasoning }

/-- Modelled from the spec: the deduplication half of the
deduplicate_and_rank call in map_impact, whose body is absent from the
sources. Per the spec, if the same (symbol, impact_type) pair is
produced via multiple paths, keep the max confidence and concatenate
reasoning strings; never emit duplicate rows for the identical pair. -/
def dedupImpacts : List StockImpact → List StockImpact
  | [] => []
  | i :: rest =>
      mergeGroup i (rest.filter (fun j => decide (keyOf j = keyOf i))) ::
        dedupImpacts (rest.filter (fun j => decide (keyOf j ≠ keyOf i)))
termination_by l => l.length
decreasing_by
  simp only [length_cons]
  exact Nat.lt_succ_of_le (List.length_filter_le _ _)

/-- Secondary sort key: impact type priority, direct highest. -/
def typePriority : ImpactType → ℕ
  | ImpactType.direct => 0
  | ImpactType.sector => 1
  | ImpactType.regulatory => 2
  | ImpactType.supply_chain => 3

/-- Modelled from the spec: the output order of deduplicate_and_rank.
Sort descending by confidence; among equal confidences the impact type
priority (direct before sector before regulatory before supply_chain)
breaks the tie. -/
def impactBefore (a b : StockImpact) : Prop :=
  b.confidence < a.confidence ∨
    (b.confidence = a.confidence ∧ typePriority a.impact_type ≤ typePriority b.impact_type)

instance : DecidableRel impactBefore := fun a b => by
  unfold impactBefore
  infer_instance

instance : IsTotal StockImpact impactBefore := by
  constructor
  intro a b
  rcases lt_trichotomy a.confidence b.confidence with h | h | h
  · exact Or.inr (Or.inl h)
  · rcases Nat.le_total (typePriority a.impact_type) (typePriority b.impact_type) with hp | hp
    · exact Or.inl (Or.inr ⟨h.symm, hp⟩)
    · exact Or.inr (Or.inr ⟨h, hp⟩)
  · exact Or.inl (Or.inl h)

instance : IsTrans StockImpact impactBefore := by
  constructor
  intro a b c hab hbc
  rcases hab with h1 | ⟨h1, h2⟩
  · rcases hbc with h3 | ⟨h3, _⟩
    · exact Or.inl (h3.trans h1)
    · exact Or.inl (lt_of_le_of_lt (le_of_eq h3) h1)
  · rcases hbc with h3 | ⟨h3, h4⟩
    · exact Or.inl (lt_of_lt_of_le h3 (le_of_eq h1))
    · exact Or.inr ⟨h3.trans h1, h2.trans h4⟩

/-- Modelled from the spec: deduplicate_and_rank, called at the end of
map_impact but not defined anywhere in the sources. It deduplicates by
(symbol, impact_type) keeping max confidence and concatenated
reasoning, then sorts descending by confidence with the impact type
priority as tie-break. -/
def deduplicate_and_rank (l : List StockImpact) : List StockImpact :=
  insertionSort impactBefore (dedupImpacts l)

/-- map_impact from part_003 (lines 330-363): accumulate the impacts
of each entity in order, then deduplicate and rank. -/
def map_impact (cat : Catalog) (entities : List Entity) : List StockImpact :=
  deduplicate_and_rank (entities.flatMap (entity_impacts cat))

/-- Following the words of the spec (section 4.4): the sector impact
confidence formula 0.6 + 0.2 * min(1, directMentionsInSector / 3),
stated for comparison against the source, which assigns the flat 0.7
of the IMPACT_TYPES table. -/
def sectorConfidenceSpec (directMentionsInSector : ℕ) : ℚ :=
  6/10 + 2/10 * min 1 ((directMentionsInSector : ℚ) / 3)

/-! ### Deduplicator (src/unnamed/part_003, lines 219-242) -/

/-- One nearest-neighbor row returned by the vector store query:
the existing cluster id of the stored article and the cosine distance
(the source converts it to a similarity as 1 - distance). -/
structure Neighbor where
  cluster_id : String
  distance : ℚ
deriving DecidableEq, Repr

/-- check_duplicate from part_003: walk the top-5 nearest neighbors in
order; the first one whose similarity (1 - distance) reaches the 0.85
threshold makes the article a duplicate of that neighbor and its
cluster is propagated. Otherwise the article is unique; the fresh
cluster id of a unique article is its own id (the new_cluster_id of
the source, which the spec fixes as the self-referential
representative id). Returns (is_duplicate, similarity, cluster_id). -/
def check_duplicate (selfId : String) : List Neighbor → Bool × ℚ × String
  | [] => (false, 0, selfId)
  | n :: rest =>
      if 1 - n.distance ≥ 85/100 then (true, 1 - n.distance, n.cluster_id)
      else check_duplicate selfId rest

/-! ### Fail-closed dedup stage (spec, sections 4.2 and 7) -/

/-- The pipeline error taxonomy entries relevant to the dedup stage. -/
inductive PipelineError
  | DependencyUnavailableError (msg : String)
  | InvalidInputError (msg : String)
deriving DecidableEq, Repr

/-- A dense embedding vector. -/
def Vec : Type := List ℚ

/-- Modelled from the spec: the dedup stage of the pipeline, whose
agent implementation is absent from the sources. The embedding
provider result is an Option (none models provider failure); the
vector store is the list of stored article ids together with a query
function returning the top nearest neighbors. On provider failure the
stage propagates DependencyUnavailableError and leaves the store
untouched; on success it runs check_duplicate and stores the article
only when it is unique. -/
def dedup_node (store : List String) (embed : Option Vec)
    (query : Vec → List Neighbor) (selfId : String) :
    List String × Except PipelineError (Bool × ℚ × String) :=
  match embed with
  | none =>
      (store, Except.error (PipelineError.DependencyUnavailableError "embedding provider unavailable"))
  | some v =>
      let res := check_duplicate selfId (query v)
      (if res.1 then store else store ++ [selfId], Except.ok res)

/-! ### Query engine result ranking (src/unnamed/part_003, lines 405-430) -/

/-- A candidate result as seen by rank_results. The two match
predicates of the source (has_direct_entity_match, has_sector_match)
and the vector similarity are query-dependent inputs whose own
definitions are not part of the ranking code, so they are carried as
fields; published_date is in days, compared against the now argument
as in the source expression (now - result.published_date).days. -/
structure QResult where
  vector_similarity : ℚ
  direct_entity_match : Bool
  sector_match : Bool
  published_date : ℤ
  is_original : Bool
  final_score : ℚ
deriving DecidableEq, Repr

/-- The score assignment of the loop body of rank_results: 0.4 times
the vector similarity, plus 0.3 for a direct entity match or else 0.15
for a sector match, plus the recency bonus max(0, 0.2 - days_old *
0.02), plus a flat 0.1 when the result is the cluster original. -/
def result_score (now : ℤ) (r : QResult) : ℚ :=
  let s1 := r.vector_similarity * (4/10)
  let s2 := if r.direct_entity_match then s1 + 3/10
            else if r.sector_match then s1 + 15/100 else s1
  let days_old : ℤ := now - r.published_date
  let s3 := s2 + max 0 (2/10 - (days_old : ℚ) * (2/100))
  if r.is_original then s3 + 1/10 else s3

/-- Sort order used by rank_results: descending final score. -/
def scoreBefore (a b : QResult) : Prop :=
  b.final_score ≤ a.final_score

instance : DecidableRel scoreBefore := fun a b => by
  unfold scoreBefore
  infer_instance

instance : IsTotal QResult scoreBefore := by
  constructor
  intro a b
  exact (le_total b.final_score a.final_score).imp id id

instance : IsTrans QResult scoreBefore := by
  constructor
  intro a b c hab hbc
  exact hbc.trans hab

/-- rank_results from part_003: assign each result its final score,
then return the list sorted descending by final score (the source
calls the stable library sort with the score as the only key). -/
def rank_results (now : ℤ) (results : List QResult) : List QResult :=
  insertionSort scoreBefore
    (results.map (fun r => { r with final_score := result_score now r }))

/-- Following the words of the spec (section 4.7, step 5): final score
0.4 * semanticSimilarity + 0.3 * direct entity match + 0.15 * sector
match + 0.2 * recencyBonus - penalty, with recencyBonus =
max(0, 0.2 - 0.02 * daysSincePublished); no penalty source exists, so
the penalty term is zero. Stated for comparison against rank_results. -/
def claimFinalScore (now : ℤ) (r : QResult) : ℚ :=
  4/10 * r.vector_similarity + (if r.direct_entity_match then 3/10 else 0) +
    (if r.sector_match then 15/100 else 0) +
    2/10 * max 0 (2/10 - (((now - r.published_date) : ℤ) : ℚ) * (2/100))

/-! ### Sentiment classifier (src/unnamed/part_002, lines 395-399 and section 5) -/

/-- The three-way financial sentiment label. -/
inductive SentimentLabel
  | bullish
  | bearish
  | neutral
deriving DecidableEq, Repr

/-- The three-way probability distribution produced by the underlying
model over positive, negative and neutral. -/
structure SentimentDist where
  positive : ℚ
  negative : ℚ
  neutral : ℚ
deriving DecidableEq, Repr

/-- A sentiment classification result: chosen label and its score. -/
structure SentimentResult where
  label : SentimentLabel
  score : ℚ
deriving DecidableEq, Repr

/-- Modelled from the spec: the inference step of the sentiment
classifier, absent from the sources. The three-way distribution is
mapped to a label by argmax (positive to bullish, negative to bearish)
and the score is the argmax probability. -/
def classify_dist (d : SentimentDist) : SentimentResult :=
  if d.negative ≤ d.positive ∧ d.neutral ≤ d.positive then
    ⟨SentimentLabel.bullish, d.positive⟩
  else if d.neutral ≤ d.negative then
    ⟨SentimentLabel.bearish, d.negative⟩
  else
    ⟨SentimentLabel.neutral, d.neutral⟩

/-- The strip of the source guard (text.strip() in Python): drop
leading and trailing whitespace. -/
def pyStrip (s : String) : String :=
  String.mk (((s.data.dropWhile (fun c => c.isWhitespace)).reverse.dropWhile
    (fun c => c.isWhitespace)).reverse)

/-- analyze from part_002 (lines 396-399): content whose stripped
length is under the 50-character floor yields no sentiment at all
(None in the source); otherwise the model distribution is classified.
The distribution is passed as an argument since the model call itself
is external. -/
def analyze (text : String) (d : SentimentDist) : Option SentimentResult :=
  if (pyStrip text).length < 50 then none
  else some (classify_dist d)

/-! ### Query intent classification (spec, section 4.7, steps 1-3) -/

/-- The four query intents. -/
inductive QueryIntent
  | company_query
  | sector_query
  | regulator_query
  | theme_query
deriving DecidableEq, Repr

/-- Entity types detected in a query. -/
structure DetectedEntities where
  companies : List Company
  sectors : List String
  regulators : List String
deriving Repr

/-- Character-list prefix test, written out so that it evaluates. -/
def startsWithChars : List Char → List Char → Bool
  | [], _ => true
  | _ :: _, [] => false
  | a :: as, b :: bs => a == b && startsWithChars as bs

/-- Whether the pattern occurs as a contiguous run inside the text. -/
def occursIn (pat : List Char) : List Char → Bool
  | [] => pat.isEmpty
  | b :: rest => startsWithChars pat (b :: rest) || occursIn pat rest

/-- Modelled from the spec: query-side entity detection, absent from
the sources. The query text is scanned against the catalog: company
aliases and sector keywords that occur in the query are detected, and
each detected company also contributes its canonical catalog sector
(the sector-inheritance rule of the spec); regulator names come from
the catalog jurisdiction table. -/
def detect_entities (cat : Catalog) (query : String) : DetectedEntities :=
  let comps := cat.companies.filter (fun c => occursIn c.name.data query.data)
  { companies := comps
    sectors :=
      cat.sectorKeywords.filter (fun s => occursIn s.data query.data) ++
        comps.map (fun c => c.sector)
    regulators := (cat.regulated.map Prod.fst).filter (fun r => occursIn r.data query.data) }

/-- Modelled from the spec: intent classification purely from which
entity types were detected, in the fixed priority order company, then
sector, then regulator, then theme; first match wins. -/
def classify_intent (d : DetectedEntities) : QueryIntent :=
  if d.companies ≠ [] then QueryIntent.company_query
  else if d.sectors ≠ [] then QueryIntent.sector_query
  else if d.regulators ≠ [] then QueryIntent.regulator_query
  else QueryIntent.theme_query

/-! ### Answer synthesis fallback (src/unnamed/part_002, lines 566-578) -/

/-- The query response fields relevant to synthesis: the ranked result
list and the optional synthesized answer. -/
structure QueryResponse where
  results : List QResult
  synthesized_answer : Option String
deriving DecidableEq, Repr

/-- The synthesized answer obtained from the optional answer-synthesis
collaborator: none when the collaborator is absent, none when its call
fails (the except branch of Mode 1 in part_002, which returns
QueryResponse(results, synthesized_answer=None)), and the generated
answer on success. -/
def synthesize_answer (collab : Option (Except String String)) : Option String :=
  match collab with
  | none => none
  | some (Except.error _) => none
  | some (Except.ok a) => some a

/-- The query engine response assembly: the ranked results are always
returned in full, with the synthesized answer attached only when the
collaborator produced one. -/
def build_response (results : List QResult) (collab : Option (Except String String)) :
    QueryResponse :=
  { results := results, synthesized_answer := synthesize_answer collab }

/-! ### Dashboard toggle handlers (src/unnamed/part_000, lines 562-583) -/

/-- toggleUpvote from the frontend: the state is the set of article
ids the user has upvoted together with the displayed per-article
upvote counts. The count map is total, with the (u[id] || 0) fallback
of the source folded in as the default value of absent entries. An id
already in the set is removed and its count decremented; otherwise it
is added and its count incremented. -/
def toggleUpvote (id : String) (s : Finset String) (u : String → ℤ) :
    Finset String × (String → ℤ) :=
  if id ∈ s then (s.erase id, Function.update u id (u id - 1))
  else (insert id s, Function.update u id (u id + 1))

/-- toggleBookmark from the frontend: membership toggle on the
bookmark set. -/
def toggleBookmark (id : String) (b : Finset String) : Finset String :=
  if id ∈ b then b.erase id else insert id b

/-! ### Theorems -/

/-- Claim C1 counterexample: the claim states that a best neighbor
similarity of at least 0.70 makes the article a duplicate, but on a
single stored neighbor at cosine similarity 0.75 (distance 0.25)
check_duplicate classifies the article as unique with a fresh
self-referential cluster id, because the threshold in the source is
0.85. -/
theorem check_duplicate_seventy_counterexample :
    (70 : ℚ)/100 ≤ 1 - (1/4 : ℚ) ∧
    check_duplicate "a2" [⟨"c1", 1/4⟩] = (false, 0, "a2") := by
  constructor
  · norm_num
  · norm_num [check_duplicate]

/-- Claim C1 (amended): check_duplicate classifies an article as a
duplicate exactly when some neighbor among the returned top nearest
neighbors has cosine similarity (1 - distance) at least 0.85, the
threshold being inclusive; in that case the returned cluster id is the
existing cluster id of a matching neighbor; otherwise, and in
particular on an empty vector store, the article is unique and its
cluster id is its own id. -/
theorem check_duplicate_correct (selfId : String) (ns : List Neighbor) :
    ((check_duplicate selfId ns).1 = true ↔
      ∃ n ∈ ns, (85 : ℚ)/100 ≤ 1 - n.distance) ∧
    ((check_duplicate selfId ns).1 = true →
      ∃ n ∈ ns, (85 : ℚ)/100 ≤ 1 - n.distance ∧
        (check_duplicate selfId ns).2.2 = n.cluster_id) ∧
    ((check_duplicate selfId ns).1 = false →
      (check_duplicate selfId ns).2.2 = selfId) := by
  induction ns with
  | nil =>
      refine ⟨?_, ?_, ?_⟩ <;> simp [check_duplicate]
  | cons n rest ih =>
      by_cases h : (1 : ℚ) - n.distance ≥ 85/100
      · refine ⟨?_, ?_, ?_⟩
        · simp only [check_duplicate, if_pos h]
          exact ⟨fun _ => ⟨n, List.mem_cons_self n rest, h⟩, fun _ => trivial⟩
        · intro _
          simp only [check_duplicate, if_pos h]
          exact ⟨n, List.mem_cons_self n rest, h, rfl⟩
        · intro hfalse
          simp only [check_duplicate, if_pos h] at hfalse
          exact Bool.noConfusion hfalse
      · refine ⟨?_, ?_, ?_⟩
        · simp only [check_duplicate, if_neg h]
          rw [ih.1]
          constructor
          · rintro ⟨m, hm, hms⟩
            exact ⟨m, List.mem_cons_of_mem n hm, hms⟩
          · rintro ⟨m, hm, hms⟩
            rcases List.mem_cons.mp hm with rfl | hm2
            · exact absurd hms h
            · exact ⟨m, hm2, hms⟩
        · intro ht
          simp only [check_duplicate, if_neg h] at ht ⊢
          obtain ⟨m, hm, hms, hcl⟩ := ih.2.1 ht
          exact ⟨m, List.mem_cons_of_mem n hm, hms, hcl⟩
        · intro hf
          simp only [check_duplicate, if_neg h] at hf ⊢
          exact ih.2.2 hf

/-- Claim C1 amended witness: on one stored neighbor at similarity
0.9 the matching cluster is propagated. -/
theorem check_duplicate_correct_witness :
    (check_duplicate "a9" [⟨"c7", 1/10⟩]).2.2 = "c7" := by
  obtain ⟨m, hm, _, hcl⟩ :=
    (check_duplicate_correct "a9" [⟨"c7", 1/10⟩]).2.1 (by norm_num [check_duplicate])
  rcases List.mem_singleton.mp hm with rfl
  exact hcl

/-- Claim C8: when the embedding provider fails, the dedup stage
propagates a DependencyUnavailableError, produces no duplicate or
unique classification, and leaves the article store unchanged, so the
caller can retry. -/
theorem dedup_node_fail_closed (store : List String) (query : Vec → List Neighbor)
    (selfId : String) :
    (dedup_node store none query selfId).1 = store ∧
    (∀ r : Bool × ℚ × String, (dedup_node store none query selfId).2 ≠ Except.ok r) ∧
    (∃ msg, (dedup_node store none query selfId).2 =
      Except.error (PipelineError.DependencyUnavailableError msg)) := by
  refine ⟨rfl, ?_, ⟨_, rfl⟩⟩
  intro r h
  simp [dedup_node] at h

/-- Claim C2 counterexample: the claimed score formula weights the
recency bonus by a second factor 0.2 and awards the +0.1 original
preference only on ties, but on a just-published original result with
zero similarity and no matches the code computes final score 0.3 while
the claimed formula gives 0.04; and two results tied at score zero are
not reordered by the claimed more-recent published_at tie-break. -/
theorem rank_results_claim_counterexample :
    rank_results 0 [⟨0, false, false, 0, true, 0⟩] = [⟨0, false, false, 0, true, 3/10⟩] ∧
    claimFinalScore 0 ⟨0, false, false, 0, true, 0⟩ = 1/25 ∧
    (3/10 : ℚ) ≠ 1/25 ∧
    rank_results 0 [⟨0, false, false, -20, false, 0⟩, ⟨0, false, false, -10, false, 0⟩] =
      [⟨0, false, false, -20, false, 0⟩, ⟨0, false, false, -10, false, 0⟩] ∧
    (-20 : ℤ) < -10 := by
  refine ⟨?_, ?_, by norm_num, ?_, by norm_num⟩
  · norm_num [rank_results, result_score, insertionSort, orderedInsert]
  · norm_num [claimFinalScore]
  · norm_num [rank_results, result_score, insertionSort, orderedInsert, scoreBefore]

/-- Claim C2 (amended): every ranked result carries the final score
0.4 times the vector similarity, plus 0.3 for a direct entity match or
else 0.15 for a sector match, plus the recency bonus
max(0, 0.2 - 0.02 * daysSincePublished) taken directly (not weighted
again by 0.2), plus a flat unconditional 0.1 for cluster originals;
the output is a permutation of the rescored inputs sorted in
non-increasing final-score order, with no published_at tie-break. -/
theorem rank_results_correct (now : ℤ) (results : List QResult) :
    (rank_results now results).Perm
      (results.map (fun r => { r with final_score := result_score now r })) ∧
    (∀ x ∈ rank_results now results,
      x.final_score =
        x.vector_similarity * (4/10) +
          (if x.direct_entity_match then 3/10 else if x.sector_match then 15/100 else 0) +
          max 0 (2/10 - (((now - x.published_date) : ℤ) : ℚ) * (2/100)) +
          (if x.is_original then 1/10 else 0)) ∧
    (rank_results now results).Pairwise (fun a b => b.final_score ≤ a.final_score) := by
  refine ⟨List.perm_insertionSort _ _, ?_, ?_⟩
  · intro x hx
    rw [rank_results, List.mem_insertionSort] at hx
    obtain ⟨r, _, rfl⟩ := List.mem_map.mp hx
    simp only [result_score]
    split_ifs <;> ring
  · exact List.sorted_insertionSort scoreBefore _

/-- Claim C9: the query engine returns the full result set when the
answer-synthesis collaborator is absent or failed, with no synthesized
answer and no error surfaced to the caller. -/
theorem build_response_failure_safe (results : List QResult) :
    build_response results none = ⟨results, none⟩ ∧
    (∀ e, build_response results (some (Except.error e)) = ⟨results, none⟩) ∧
    (∀ collab, (build_response results collab).results = results) :=
  ⟨rfl, fun _ => rfl, fun _ => rfl⟩

/-- Claim C10: toggling the upvote of the same article id twice
returns both the user-upvote set and the displayed count map exactly
to their starting values, from any starting state; the same holds for
toggling a bookmark twice. -/
theorem toggle_twice_involution (id : String) (s : Finset String) (u : String → ℤ)
    (b : Finset String) :
    toggleUpvote id (toggleUpvote id s u).1 (toggleUpvote id s u).2 = (s, u) ∧
    toggleBookmark id (toggleBookmark id b) = b := by
  constructor
  · by_cases h : id ∈ s
    · simp [toggleUpvote, h, Function.update_idem, sub_add_cancel,
        Function.update_eq_self, Finset.insert_erase]
    · simp [toggleUpvote, h, Function.update_idem, add_sub_cancel_right,
        Function.update_eq_self, Finset.erase_insert]
  · by_cases h : id ∈ b
    · simp [toggleBookmark, h, Finset.insert_erase]
    · simp [toggleBookmark, h, Finset.erase_insert]

/-- Claim C6: the sentiment classifier never produces a label without
a score in [0, 1]; the label, when present, is exactly one of bullish,
bearish or neutral; and content whose stripped length is below the
50-character floor yields no label at all. The hypotheses state that
the model output is a probability distribution over the three
classes. -/
theorem analyze_sentiment_sound (text : String) (d : SentimentDist)
    (hp : 0 ≤ d.positive) (hn : 0 ≤ d.negative) (hu : 0 ≤ d.neutral)
    (hs : d.positive + d.negative + d.neutral = 1) :
    ((pyStrip text).length < 50 → analyze text d = none) ∧
    ∀ r : SentimentResult, analyze text d = some r →
      0 ≤ r.score ∧ r.score ≤ 1 ∧
        (r.label = SentimentLabel.bullish ∨ r.label = SentimentLabel.bearish ∨
          r.label = SentimentLabel.neutral) := by
  constructor
  · intro hshort
    simp [analyze, hshort]
  · intro r hr
    by_cases hshort : (pyStrip text).length < 50
    · simp [analyze, hshort] at hr
    · simp only [analyze, if_neg hshort, Option.some.injEq] at hr
      subst hr
      unfold classify_dist
      split_ifs with h1 h2
      · exact ⟨hp, by linarith [h1.1, h1.2], Or.inl rfl⟩
      · exact ⟨hn, by linarith, Or.inr (Or.inl rfl)⟩
      · exact ⟨hu, by linarith, Or.inr (Or.inr rfl)⟩

/-- Claim C6 witness: a short text yields no sentiment, and a
50-character content with distribution (0.5, 0.25, 0.25) yields
bullish at score 0.5, inside the bounds. -/
theorem analyze_sentiment_sound_witness :
    analyze "too short" ⟨1/2, 1/4, 1/4⟩ = none ∧
    (0 : ℚ) ≤ 1/2 ∧ (1/2 : ℚ) ≤ 1 := by
  have h := analyze_sentiment_sound "too short" ⟨1/2, 1/4, 1/4⟩
    (by norm_num) (by norm_num) (by norm_num) (by norm_num)
  exact ⟨h.1 (by decide), by norm_num, by norm_num⟩

/-- Prefix matching is reflexive. -/
theorem startsWithChars_self (l : List Char) : startsWithChars l l = true := by
  induction l with
  | nil => rfl
  | cons a as ih => simp [startsWithChars, ih]

/-- A character run occurs in itself. -/
theorem occursIn_self (l : List Char) : occursIn l l = true := by
  cases l with
  | nil => rfl
  | cons a as => simp [occursIn, startsWithChars_self]

/-- Claim C7: intent classification is a pure function of which entity
types were detected, applied in the fixed priority order company, then
sector, then regulator, then theme; and a query that is exactly a
catalog company alias is classified company_query, with the canonical
sector of that company among the detected sectors. -/
theorem classify_intent_priority_and_symmetry :
    (∀ d : DetectedEntities,
      (d.companies ≠ [] → classify_intent d = QueryIntent.company_query) ∧
      (d.companies = [] → d.sectors ≠ [] → classify_intent d = QueryIntent.sector_query) ∧
      (d.companies = [] → d.sectors = [] → d.regulators ≠ [] →
        classify_intent d = QueryIntent.regulator_query) ∧
      (d.companies = [] → d.sectors = [] → d.regulators = [] →
        classify_intent d = QueryIntent.theme_query)) ∧
    (∀ (cat : Catalog) (c : Company), c ∈ cat.companies →
      classify_intent (detect_entities cat c.name) = QueryIntent.company_query ∧
      c.sector ∈ (detect_entities cat c.name).sectors) := by
  constructor
  · intro d
    refine ⟨?_, ?_, ?_, ?_⟩ <;> intros <;> simp_all [classify_intent]
  · intro cat c hc
    have hmem : c ∈ (detect_entities cat c.name).companies := by
      simp only [detect_entities]
      exact List.mem_filter.mpr ⟨hc, occursIn_self c.name.data⟩
    constructor
    · simp only [classify_intent, if_pos (List.ne_nil_of_mem hmem)]
    · simp only [detect_entities] at hmem ⊢
      exact List.mem_append.mpr (Or.inr (List.mem_map_of_mem _ hmem))

/-- Claim C7 witness: on a one-company catalog the alias query is a
company query carrying the canonical sector. -/
theorem classify_intent_priority_and_symmetry_witness :
    classify_intent
        (detect_entities ⟨[⟨"HDFC Bank", "HDFCBANK", "Banking"⟩], [], []⟩ "HDFC Bank") =
      QueryIntent.company_query ∧
    "Banking" ∈
      (detect_entities ⟨[⟨"HDFC Bank", "HDFCBANK", "Banking"⟩], [], []⟩ "HDFC Bank").sectors := by
  have h := classify_intent_priority_and_symmetry.2
    ⟨[⟨"HDFC Bank", "HDFCBANK", "Banking"⟩], [], []⟩
    ⟨"HDFC Bank", "HDFCBANK", "Banking"⟩ (by simp)
  exact h

/-- The merged representative of a group keeps the group key. -/
theorem keyOf_mergeGroup (h : StockImpact) (t : List StockImpact) :
    keyOf (mergeGroup h t) = keyOf h := rfl

/-- The initial value bounds the confidence fold from below. -/
theorem confFold_init_le (init : ℚ) (l : List StockImpact) :
    init ≤ l.foldl (fun acc j => max acc j.confidence) init := by
  induction l generalizing init with
  | nil => exact le_refl _
  | cons k t ih => exact le_trans (le_max_left init k.confidence) (ih (max init k.confidence))

/-- Every member bounds the confidence fold from below. -/
theorem confFold_mem_le (init : ℚ) (l : List StockImpact) :
    ∀ j ∈ l, j.confidence ≤ l.foldl (fun acc j => max acc j.confidence) init := by
  induction l generalizing init with
  | nil => intro j hj; simp at hj
  | cons k t ih =>
      intro j hj
      rcases mem_cons.mp hj with rfl | hj2
      · exact le_trans (le_max_right init j.confidence) (confFold_init_le _ t)
      · exact ih _ j hj2

/-- The confidence fold is attained by the initial value or a member. -/
theorem confFold_attained (init : ℚ) (l : List StockImpact) :
    l.foldl (fun acc j => max acc j.confidence) init = init ∨
      ∃ j ∈ l, l.foldl (fun acc j => max acc j.confidence) init = j.confidence := by
  induction l generalizing init with
  | nil => exact Or.inl rfl
  | cons k t ih =>
      rcases ih (max init k.confidence) with h | ⟨j, hj, he⟩
      · rcases max_choice init k.confidence with hm | hm
        · exact Or.inl (h.trans hm)
        · exact Or.inr ⟨k, mem_cons_self k t, h.trans hm⟩
      · exact Or.inr ⟨j, mem_cons_of_mem k hj, he⟩

/-- Every key in the deduplicated output comes from the input. -/
theorem dedupImpacts_key_from (l : List StockImpact) :
    ∀ x ∈ dedupImpacts l, ∃ j ∈ l, keyOf j = keyOf x := by
  induction l using dedupImpacts.induct with
  | case1 => intro x hx; simp [dedupImpacts] at hx
  | case2 i rest ih =>
      intro x hx
      simp only [dedupImpacts] at hx
      rcases mem_cons.mp hx with rfl | hx2
      · exact ⟨i, mem_cons_self i rest, rfl⟩
      · obtain ⟨j, hj, hk⟩ := ih x hx2
        exact ⟨j, mem_cons_of_mem i (mem_filter.mp hj).1, hk⟩

/-- Each output entry of the dedup pass is the merge of the full group
of input entries sharing its key, in input order. -/
theorem dedupImpacts_group (l : List StockImpact) :
    ∀ x ∈ dedupImpacts l,
      ∃ h t, l.filter (fun j => decide (keyOf j = keyOf x)) = h :: t ∧ x = mergeGroup h t := by
  induction l using dedupImpacts.induct with
  | case1 => intro x hx; simp [dedupImpacts] at hx
  | case2 i rest ih =>
      intro x hx
      simp only [dedupImpacts] at hx
      rcases mem_cons.mp hx with rfl | hx2
      · refine ⟨i, rest.filter (fun j => decide (keyOf j = keyOf i)), ?_, rfl⟩
        simp [keyOf_mergeGroup, filter_cons]
      · obtain ⟨h, t, hft, hxe⟩ := ih x hx2
        have hhmem := hft ▸ mem_cons_self h t
        have hh2 := mem_filter.mp hhmem
        have hhk : keyOf h = keyOf x := of_decide_eq_true hh2.2
        have hhne : keyOf h ≠ keyOf i := of_decide_eq_true (mem_filter.mp hh2.1).2
        have hxne : keyOf x ≠ keyOf i := fun he => hhne (hhk.trans he)
        refine ⟨h, t, ?_, hxe⟩
        rw [filter_cons, if_neg (by simp; exact fun he => hxne he.symm)]
        rw [filter_filter] at hft
        rw [show rest.filter (fun j => decide (keyOf j = keyOf x)) =
            rest.filter (fun a => decide (keyOf a = keyOf x) && decide (keyOf a ≠ keyOf i)) from
          filter_congr (by
            intro j hj
            by_cases hc : keyOf j = keyOf x
            · simp [hc, hxne]
            · simp [hc])]
        exact hft

/-- Distinct output entries of the dedup pass have distinct keys. -/
theorem dedupImpacts_pairwise_keys (l : List StockImpact) :
    (dedupImpacts l).Pairwise (fun a b => keyOf a ≠ keyOf b) := by
  induction l using dedupImpacts.induct with
  | case1 => simp [dedupImpacts]
  | case2 i rest ih =>
      simp only [dedupImpacts]
      refine Pairwise.cons ?_ ih
      intro y hy hke
      obtain ⟨j, hj, hjk⟩ := dedupImpacts_key_from _ y hy
      have hne : keyOf j ≠ keyOf i := of_decide_eq_true (mem_filter.mp hj).2
      exact hne (hjk.trans hke.symm)

/-- Every input key survives the dedup pass. -/
theorem dedupImpacts_covers (l : List StockImpact) :
    ∀ j ∈ l, ∃ x ∈ dedupImpacts l, keyOf x = keyOf j := by
  induction l using dedupImpacts.induct with
  | case1 => intro j hj; simp at hj
  | case2 i rest ih =>
      intro j hj
      simp only [dedupImpacts]
      rcases mem_cons.mp hj with hij | hj2
      · exact ⟨mergeGroup i _, mem_cons_self _ _, by rw [hij, keyOf_mergeGroup]⟩
      · by_cases hk : keyOf j = keyOf i
        · exact ⟨mergeGroup i _, mem_cons_self _ _, (keyOf_mergeGroup _ _).trans hk.symm⟩
        · have hjf : j ∈ rest.filter (fun j => decide (keyOf j ≠ keyOf i)) :=
            mem_filter.mpr ⟨hj2, decide_eq_true hk⟩
          obtain ⟨x, hx, hxk⟩ := ih j hjf
          exact ⟨x, mem_cons_of_mem _ hx, hxk⟩

/-- Keys agree exactly when symbol and impact type agree. -/
theorem keyOf_eq_iff (a b : StockImpact) :
    keyOf a = keyOf b ↔ a.stock = b.stock ∧ a.impact_type = b.impact_type := by
  simp [keyOf, Prod.ext_iff]

/-- Every sector-typed impact produced by the entity loop carries the
flat confidence 0.7 of the IMPACT_TYPES table. -/
theorem raw_sector_confidence (cat : Catalog) (entities : List Entity) :
    ∀ j ∈ entities.flatMap (entity_impacts cat),
      j.impact_type = ImpactType.sector → j.confidence = 7/10 := by
  intro j hj hs
  obtain ⟨e, _, hje⟩ := mem_flatMap.mp hj
  rcases e with ⟨ety, v⟩
  cases ety with
  | COMPANY =>
      simp only [entity_impacts] at hje
      cases hlc : lookup_company cat v with
      | none => rw [hlc] at hje; simp at hje
      | some c =>
          rw [hlc] at hje
          rcases mem_cons.mp hje with hji | hmem
          · rw [hji] at hs; simp at hs
          · obtain ⟨p, _, hpe⟩ := mem_map.mp hmem
            rw [← hpe]
  | REGULATOR =>
      simp only [entity_impacts] at hje
      obtain ⟨c, _, hce⟩ := mem_map.mp hje
      rw [← hce] at hs
      simp at hs
  | SECTOR => simp [entity_impacts] at hje
  | EVENT => simp [entity_impacts] at hje

/-- Claim C3: in the impact scorer output no two entries share both
stock symbol and impact type; each retained entry carries the maximum
confidence among the raw impact paths that produced its (symbol, type)
pair, with that maximum attained by one of the paths and the reasoning
strings of the group concatenated in path order; and every raw
(symbol, type) pair is represented in the output. -/
theorem map_impact_dedup_invariant (cat : Catalog) (entities : List Entity) :
    (map_impact cat entities).Pairwise
      (fun a b => ¬ (a.stock = b.stock ∧ a.impact_type = b.impact_type)) ∧
    (∀ x ∈ map_impact cat entities,
      (∀ j ∈ entities.flatMap (entity_impacts cat),
        j.stock = x.stock → j.impact_type = x.impact_type → j.confidence ≤ x.confidence) ∧
      (∃ j ∈ entities.flatMap (entity_impacts cat),
        j.stock = x.stock ∧ j.impact_type = x.impact_type ∧ x.confidence = j.confidence) ∧
      (∃ h t, (entities.flatMap (entity_impacts cat)).filter
          (fun j => decide (keyOf j = keyOf x)) = h :: t ∧
        x.reasoning = t.foldl (fun acc j => acc ++ "; " ++ j.reasoning) h.reasoning)) ∧
    (∀ j ∈ entities.flatMap (entity_impacts cat), ∃ x ∈ map_impact cat entities,
      x.stock = j.stock ∧ x.impact_type = j.impact_type) := by
  have hperm : map_impact cat entities ~ dedupImpacts (entities.flatMap (entity_impacts cat)) := by
    rw [map_impact, deduplicate_and_rank]
    exact perm_insertionSort _ _
  refine ⟨?_, ?_, ?_⟩
  · have hp := dedupImpacts_pairwise_keys (entities.flatMap (entity_impacts cat))
    have hsym : ∀ {a b : StockImpact}, keyOf a ≠ keyOf b → keyOf b ≠ keyOf a :=
      fun h he => h he.symm
    have := (Perm.pairwise_iff hsym hperm).mpr hp
    exact this.imp (fun h hc => h ((keyOf_eq_iff _ _).mpr hc))
  · intro x hx
    have hx2 := hperm.mem_iff.mp hx
    obtain ⟨h, t, hft, hxe⟩ := dedupImpacts_group _ x hx2
    have hconf : x.confidence = t.foldl (fun acc j => max acc j.confidence) h.confidence := by
      rw [hxe]; rfl
    refine ⟨?_, ?_, h, t, hft, by rw [hxe]; rfl⟩
    · intro j hj hjs hjt
      have hjf : j ∈ h :: t := by
        rw [← hft]
        exact mem_filter.mpr ⟨hj, decide_eq_true ((keyOf_eq_iff _ _).mpr ⟨hjs, hjt⟩)⟩
      rw [hconf]
      rcases mem_cons.mp hjf with hji | hjf2
      · rw [hji]; exact confFold_init_le _ t
      · exact confFold_mem_le _ t j hjf2
    · have hhmem := hft ▸ mem_cons_self h t
      have hh2 := mem_filter.mp hhmem
      have hhk := (keyOf_eq_iff _ _).mp (of_decide_eq_true hh2.2)
      rcases confFold_attained h.confidence t with he | ⟨j, hj, he⟩
      · exact ⟨h, hh2.1, hhk.1, hhk.2, by rw [hconf, he]⟩
      · have hjf : j ∈ h :: t := mem_cons_of_mem h hj
        rw [← hft] at hjf
        have hj2 := mem_filter.mp hjf
        have hjk := (keyOf_eq_iff _ _).mp (of_decide_eq_true hj2.2)
        exact ⟨j, hj2.1, hjk.1, hjk.2, by rw [hconf, he]⟩
  · intro j hj
    obtain ⟨x, hx, hxk⟩ := dedupImpacts_covers _ j hj
    have hk := (keyOf_eq_iff _ _).mp hxk
    exact ⟨x, hperm.mem_iff.mpr hx, hk.1, hk.2⟩

/-- A type of priority zero is the direct type. -/
theorem typePriority_eq_zero {t : ImpactType} (h : typePriority t = 0) :
    t = ImpactType.direct := by
  cases t with
  | direct => rfl
  | sector => simp [typePriority] at h
  | regulatory => simp [typePriority] at h
  | supply_chain => simp [typePriority] at h

/-- Claim C5: the impact scorer output is sorted descending by
confidence with the impact type priority direct, sector, regulatory,
supply_chain breaking ties; in particular no non-direct entry ever
precedes a direct entry of equal confidence. -/
theorem map_impact_ordering_invariant (cat : Catalog) (entities : List Entity) :
    (map_impact cat entities).Pairwise (fun a b =>
      (b.confidence < a.confidence ∨
        (b.confidence = a.confidence ∧
          typePriority a.impact_type ≤ typePriority b.impact_type)) ∧
      (b.confidence = a.confidence → b.impact_type = ImpactType.direct →
        a.impact_type = ImpactType.direct)) := by
  have hs : (map_impact cat entities).Pairwise impactBefore := by
    rw [map_impact, deduplicate_and_rank]
    exact sorted_insertionSort impactBefore _
  refine hs.imp ?_
  intro a b h
  have h2 : b.confidence < a.confidence ∨
      (b.confidence = a.confidence ∧
        typePriority a.impact_type ≤ typePriority b.impact_type) := h
  refine ⟨h2, ?_⟩
  intro heq hbd
  rcases h2 with hlt | ⟨_, hp⟩
  · rw [heq] at hlt
    exact absurd hlt (lt_irrefl _)
  · rw [hbd] at hp
    exact typePriority_eq_zero (Nat.le_zero.mp hp)

/-- The concrete catalog of the sector-confidence counterexample: two
Banking companies, one of which is directly mentioned. -/
def cexCatalog : Catalog :=
  { companies := [⟨"HDFC Bank", "HDFCBANK", "Banking"⟩, ⟨"ICICI Bank", "ICICIBANK", "Banking"⟩]
    regulated := []
    sectorKeywords := ["Banking"] }

/-- The entity list of the counterexample article: a single direct
mention of HDFC Bank. -/
def cexEntities : List Entity := [⟨EntityType.COMPANY, "HDFC Bank"⟩]

/-- Full evaluation of the impact scorer on the counterexample input. -/
theorem cex_map_impact_eval :
    map_impact cexCatalog cexEntities =
      [⟨"HDFCBANK", ImpactType.direct, 1, "Company directly mentioned"⟩,
       ⟨"HDFCBANK", ImpactType.sector, 7/10, "Sector-wide impact"⟩,
       ⟨"ICICIBANK", ImpactType.sector, 7/10, "Sector-wide impact"⟩] := by
  norm_num +decide [map_impact, deduplicate_and_rank, dedupImpacts, mergeGroup, entity_impacts,
    lookup_company, get_sector_peers, keyOf, List.find?, List.filter, List.flatMap,
    insertionSort, orderedInsert, impactBefore, typePriority, cexCatalog, cexEntities]

/-- Claim C4 counterexample: with exactly one direct mention in the
Banking sector the claimed formula yields 2/3, yet both emitted sector
impacts carry confidence 0.7. -/
theorem sector_confidence_formula_counterexample :
    map_impact cexCatalog cexEntities =
      [⟨"HDFCBANK", ImpactType.direct, 1, "Company directly mentioned"⟩,
       ⟨"HDFCBANK", ImpactType.sector, 7/10, "Sector-wide impact"⟩,
       ⟨"ICICIBANK", ImpactType.sector, 7/10, "Sector-wide impact"⟩] ∧
    sectorConfidenceSpec 1 = 2/3 ∧ (7/10 : ℚ) ≠ 2/3 :=
  ⟨cex_map_impact_eval, by norm_num [sectorConfidenceSpec, min_def], by norm_num⟩

/-- Claim C4 (amended): every sector-typed impact in the scorer output
has confidence exactly 0.7, which lies within the documented 0.6 to
0.8 band. -/
theorem sector_impact_flat_confidence (cat : Catalog) (entities : List Entity)
    (x : StockImpact) (hx : x ∈ map_impact cat entities)
    (hs : x.impact_type = ImpactType.sector) :
    x.confidence = 7/10 ∧ (6/10 : ℚ) ≤ x.confidence ∧ x.confidence ≤ 8/10 := by
  have hx2 : x ∈ dedupImpacts (entities.flatMap (entity_impacts cat)) := by
    rw [map_impact, deduplicate_and_rank] at hx
    exact (mem_insertionSort _).mp hx
  obtain ⟨h, t, hft, hxe⟩ := dedupImpacts_group _ x hx2
  have hsub : ∀ j ∈ h :: t, j.confidence = 7/10 := by
    intro j hj
    rw [← hft] at hj
    have hj2 := mem_filter.mp hj
    have hk := (keyOf_eq_iff _ _).mp (of_decide_eq_true hj2.2)
    exact raw_sector_confidence cat entities j hj2.1 (hk.2.trans hs)
  have hconf : x.confidence = t.foldl (fun acc j => max acc j.confidence) h.confidence := by
    rw [hxe]; rfl
  have h710 : x.confidence = 7/10 := by
    rcases confFold_attained h.confidence t with he | ⟨j, hj, he⟩
    · rw [hconf, he]; exact hsub h (mem_cons_self h t)
    · rw [hconf, he]; exact hsub j (mem_cons_of_mem h hj)
  exact ⟨h710, by rw [h710]; norm_num, by rw [h710]; norm_num⟩

/-- Claim C4 amended witness: the ICICIBANK sector impact of the
concrete run has confidence 0.7, inside the band. -/
theorem sector_impact_flat_confidence_witness :
    (⟨"ICICIBANK", ImpactType.sector, 7/10, "Sector-wide impact"⟩ : StockImpact).confidence = 7/10 ∧
    (6/10 : ℚ) ≤
      (⟨"ICICIBANK", ImpactType.sector, 7/10, "Sector-wide impact"⟩ : StockImpact).confidence ∧
    (⟨"ICICIBANK", ImpactType.sector, 7/10, "Sector-wide impact"⟩ : StockImpact).confidence ≤ 8/10 :=
  sector_impact_flat_confidence cexCatalog cexEntities _
    (by rw [cex_map_impact_eval]
        exact mem_cons_of_mem _ (mem_cons_of_mem _ (mem_cons_self _ _)))
    rfl
